import Mathlib

/-!
Verification of the `SocketsToFibers` (stream_listener) microservice of the ssf
repository, against its natural-language specification.

The parameter-validation factory (`Create`), the creation-request builder
(`GetCreateRequest`) and the port parsing (`std::stoul` under an LP64 runtime,
where `unsigned long` is 64 bits wide) are shallowly embedded from
`src/services/sockets_to_fibers/sockets_to_fibers.h`.  The session registry,
the lifecycle `stop` and the fiber-connect handler are declared in that header
but implemented in `sockets_to_fibers.ipp`, which is not part of the excerpt;
those are modelled from the specification, as marked on each definition.
-/

/-- A string-keyed parameter map (`std::map<std::string, std::string>`);
keys are unique in the C++ map, membership is first-match lookup here. -/
def Params : Type := List (String × String)

/-- Presence check `parameters.count(k) != 0` on an `std::map`. -/
def hasKey (ps : Params) (k : String) : Bool :=
  (List.lookup k ps).isSome

/-- Access `parameters.at(k)`; only ever used after a presence check, the default
value is irrelevant. -/
def getParam (ps : Params) (k : String) : String :=
  (List.lookup k ps).getD ""

/-- The characters the C locale `isspace` accepts, skipped by `strtoul`. -/
def isSpaceC (c : Char) : Bool :=
  c = ' ' || c = '\t' || c = '\n' || c = '\x0b' || c = '\x0c' || c = '\r'

/-- The `ULONG_MAX` of an LP64 platform: `unsigned long` is 64 bits wide. -/
def ULONG_MAX : Nat := 2 ^ 64 - 1

/-- Value of a list of decimal digit characters, most significant first,
accumulated onto `acc` (the loop `strtoul` runs over the digit prefix). -/
def digitsVal : List Char → Nat → Nat
  | [], acc => acc
  | c :: cs, acc => digitsVal cs (acc * 10 + (c.toNat - 48))

/-- Shallow embedding of `std::stoul(s)` in base 10 on LP64: skip C-locale
whitespace, accept one optional `+`/`-` sign, read the longest digit prefix
(whatever follows it is ignored); no digit at all throws `invalid_argument`
and a magnitude above `ULONG_MAX` throws `out_of_range` (both become `none`);
a minus sign negates the value modulo `2 ^ 64`. -/
def stoul (s : String) : Option Nat :=
  let cs := s.data.dropWhile isSpaceC
  let sgn : Bool := cs.head? = some '-'
  let cs2 := if cs.head? = some '-' ∨ cs.head? = some '+' then cs.tail else cs
  let ds := cs2.takeWhile Char.isDigit
  if ds.isEmpty then none
  else
    let v := digitsVal ds 0
    if ULONG_MAX < v then none
    else some (if sgn then (2 ^ 64 - v) % 2 ^ 64 else v)

/-- The configuration a successfully created `SocketsToFibers` service holds
(fields `local_addr_`, `local_port_`, `remote_port_`). -/
structure Service where
  local_addr : String
  local_port : Nat
  remote_port : Nat
deriving DecidableEq, Repr

/-- Shallow embedding of `SocketsToFibers::Create`
(`sockets_to_fibers.h`, lines 73-119).  `nullptr` becomes `none`; the
`uint32_t` conversions of the `stoul` results and the `static_cast<uint16_t>`
on the checked local port are the explicit `% 2 ^ 32` / `% 2 ^ 16`. -/
def Create (parameters : Params) (gateway_ports : Bool) : Option Service :=
  if hasKey parameters "local_addr" = false ∨ hasKey parameters "local_port" = false ∨
      hasKey parameters "remote_port" = false then
    none
  else
    let requested := getParam parameters "local_addr"
    let local_addr : String :=
      if hasKey parameters "local_addr" = true ∧ requested ≠ "" then
        if gateway_ports then
          if requested = "*" then "0.0.0.0" else requested
        else "127.0.0.1"
      else "127.0.0.1"
    match stoul (getParam parameters "local_port"),
        stoul (getParam parameters "remote_port") with
    | some lp, some rp =>
        let local_port : Nat := lp % 2 ^ 32
        let remote_port : Nat := rp % 2 ^ 32
        if 65535 < local_port then none
        else some { local_addr := local_addr, local_port := local_port % 2 ^ 16,
                    remote_port := remote_port }
    | _, _ => none

/-- The effective bind address `Create` resolves from the requested
`local_addr` and the gateway-ports flag (the four documented cases). -/
def resolveLocalAddr (requested : String) (gateway_ports : Bool) : String :=
  if requested = "" then "127.0.0.1"
  else if gateway_ports then
    if requested = "*" then "0.0.0.0" else requested
  else "127.0.0.1"

/-- Modelled from the spec: the stable numeric factory identifier of this
service kind (`MicroserviceId::kSocketsToFibers`); its numeric value lives in
`services/service_id.h`, which is not part of the excerpt — every property
below depends only on its stability, not on the value. -/
def kFactoryId : Nat := 7

/-- A creation request: factory identifier plus a parameter map. -/
structure CreateServiceRequest where
  factory_id : Nat
  params : Params

/-- Shallow embedding of `SocketsToFibers::GetCreateRequest`
(`sockets_to_fibers.h`, lines 138-147): `std::to_string` on the numeric port
values is `toString` on their `Nat` values. -/
def GetCreateRequest (local_addr : String) (local_port : Nat) (remote_port : Nat) :
    CreateServiceRequest :=
  { factory_id := kFactoryId,
    params := [("local_addr", local_addr),
               ("local_port", toString local_port),
               ("remote_port", toString remote_port)] }

/-- Modelled from the spec: the three states of a relay session
(`Connecting` → `Relaying` → `Closed`, `Closed` terminal); the session code
lives in `sockets_to_fibers.ipp` and `ssf/network`, outside the excerpt. -/
inductive SessionState
  | Connecting
  | Relaying
  | Closed
deriving DecidableEq, Repr

/-- Modelled from the spec: the `SessionRegistry` (`manager_` plus the
sessions it tracks): every session ever created with its current state, and
the ids currently registered. -/
structure RegState where
  sessions : List (Nat × SessionState)
  registry : List Nat
deriving DecidableEq, Repr

/-- State of one session, `none` when the id was never created. -/
def lookupSession (r : RegState) (id : Nat) : Option SessionState :=
  List.lookup id r.sessions

/-- A session in `Connecting` or `Relaying` is live; `Closed` or absent is not. -/
def isOpen : Option SessionState → Bool
  | some SessionState.Connecting => true
  | some SessionState.Relaying => true
  | _ => false

/-- Overwrite the state of session `id` (all other sessions untouched). -/
def setState (r : RegState) (id : Nat) (st : SessionState) : RegState :=
  { r with sessions := r.sessions.map fun p => if p.1 = id then (p.1, st) else p }

/-- Modelled from the spec: `erase(id)` on the registry, a no-op if absent. -/
def eraseReg (r : RegState) (id : Nat) : RegState :=
  { r with registry := r.registry.erase id }

/-- Modelled from the spec: `StopSession` / a session's self-teardown — if the
session is live, mark it `Closed` and erase it from the registry; otherwise do
nothing (this is what makes concurrent triggers idempotent). -/
def closeSession (r : RegState) (id : Nat) : RegState :=
  if isOpen (lookupSession r id) then eraseReg (setState r id SessionState.Closed) id
  else r

/-- Modelled from the spec: `stopAll()` — snapshot the registered ids, then
stop each one; stopping a session may erase it concurrently, which the
snapshot makes safe. -/
def stopAll (r : RegState) : RegState :=
  r.registry.foldl closeSession r

/-- Modelled from the spec: the events that drive the registry — a successful
establishment inserts a fresh `Connecting` session, the relay start moves it
to `Relaying`, and teardown (self-triggered or via `stopAll`, in any
interleaving) closes it. -/
inductive Step : RegState → RegState → Prop
  | accept (s : RegState) (id : Nat) (h : List.lookup id s.sessions = none) :
      Step s { sessions := (id, SessionState.Connecting) :: s.sessions,
               registry := id :: s.registry }
  | relay (s : RegState) (id : Nat)
      (h : List.lookup id s.sessions = some SessionState.Connecting) :
      Step s (setState s id SessionState.Relaying)
  | close (s : RegState) (id : Nat) : Step s (closeSession s id)

/-- Registry states reachable from the empty initial state. -/
inductive Reachable : RegState → Prop
  | init : Reachable { sessions := [], registry := [] }
  | step {s t : RegState} : Reachable s → Step s t → Reachable t

/-- The registry invariant: an id is registered exactly when its session is
live, and no id is registered twice. -/
def RegInv (r : RegState) : Prop :=
  (∀ id, id ∈ r.registry ↔ isOpen (lookupSession r id) = true) ∧ r.registry.Nodup

/-- Modelled from the spec: the service state the lifecycle manipulates — the
listening endpoint (open between `start()` and `stop()`) and the registry. -/
structure ServiceState where
  acceptor_open : Bool
  reg : RegState
deriving DecidableEq, Repr

/-- Modelled from the spec: `stop()` — close the listening endpoint
(cancelling the pending accept), stop every registered session, and report no
error; safe whether or not `start()` ever succeeded. -/
def stop (s : ServiceState) : ServiceState × Option String :=
  ({ acceptor_open := false, reg := stopAll s.reg }, none)

/-- Outcome of one establishment attempt: whether the inbound TCP socket was
closed, and whether a retry was scheduled. -/
structure ConnOutcome where
  socket_closed : Bool
  retried : Bool
deriving DecidableEq, Repr

/-- Insert a freshly established session directly in `Relaying`. -/
def insertRelaying (r : RegState) (id : Nat) : RegState :=
  { sessions := (id, SessionState.Relaying) :: r.sessions,
    registry := id :: r.registry }

/-- Modelled from the spec: `FiberConnectHandler` — on a failed
virtual-channel open, close and discard the inbound TCP socket with no retry
and touch nothing else; on success, register the session and start the relay. -/
def fiberConnectHandler (connect_failed : Bool) (s : ServiceState) (id : Nat) :
    ServiceState × ConnOutcome :=
  if connect_failed then (s, { socket_closed := true, retried := false })
  else ({ s with reg := insertRelaying s.reg id },
        { socket_closed := false, retried := false })

/-- Full characterization of `Create`: with a key missing the result is
`none`; otherwise the two ports are parsed, the range of the truncated local
port checked, and the service built around the resolved bind address. -/
theorem create_eq (ps : Params) (gw : Bool) :
    Create ps gw =
      if hasKey ps "local_addr" = true ∧ hasKey ps "local_port" = true ∧
          hasKey ps "remote_port" = true then
        match stoul (getParam ps "local_port"), stoul (getParam ps "remote_port") with
        | some lp, some rp =>
            if 65535 < lp % 2 ^ 32 then none
            else some { local_addr := resolveLocalAddr (getParam ps "local_addr") gw,
                        local_port := lp % 2 ^ 32 % 2 ^ 16,
                        remote_port := rp % 2 ^ 32 }
        | _, _ => none
      else none := by
  unfold Create resolveLocalAddr
  by_cases h1 : hasKey ps "local_addr" = true <;>
    by_cases h2 : hasKey ps "local_port" = true <;>
      by_cases h3 : hasKey ps "remote_port" = true <;>
        simp [h1, h2, h3, Bool.not_eq_true] at *

example : stoul "80" = some 80 := by decide
example : stoul "80x" = some 80 := by decide
example : stoul "+80" = some 80 := by decide
example : stoul " \t80" = some 80 := by decide
example : stoul "x" = none := by decide
example : stoul "" = none := by decide
example : stoul "-5" = some (2 ^ 64 - 5) := by decide
example : Create [("local_addr", ""), ("local_port", "80x"), ("remote_port", "1")] true
    = some { local_addr := "127.0.0.1", local_port := 80, remote_port := 1 } := by decide
example : Create [("local_addr", "*"), ("local_port", "80"), ("remote_port", "1")] true
    = some { local_addr := "0.0.0.0", local_port := 80, remote_port := 1 } := by decide
example : Create [("local_addr", "*"), ("local_port", "80"), ("remote_port", "1")] false
    = some { local_addr := "127.0.0.1", local_port := 80, remote_port := 1 } := by decide
example : Create [("local_addr", ""), ("local_port", "70000"), ("remote_port", "1")] true
    = none := by decide
example : Create [("local_addr", ""), ("local_port", "4294967296"), ("remote_port", "1")] true
    = some { local_addr := "127.0.0.1", local_port := 0, remote_port := 1 } := by decide
example : Create [("local_port", "80"), ("remote_port", "1")] true = none := by decide

/-- Value of `Nat.digitChar` at a decimal digit: ASCII code `48 + d`, and it is a
digit character. -/
theorem digitChar_val (d : Nat) (h : d < 10) :
    (Nat.digitChar d).toNat = 48 + d ∧ (Nat.digitChar d).isDigit = true := by
  interval_cases d <;> exact ⟨by decide, by decide⟩

/-- A digit character is not C whitespace. -/
theorem digit_not_space (c : Char) (h : c.isDigit = true) : isSpaceC c = false := by
  by_contra hsp
  rw [Bool.not_eq_false, isSpaceC] at hsp
  simp only [Bool.or_eq_true, decide_eq_true_eq] at hsp
  rcases hsp with ((((h1 | h1) | h1) | h1) | h1) | h1 <;> subst h1 <;>
    exact absurd h (by decide)

/-- A digit character is neither a minus nor a plus sign. -/
theorem digit_not_sign (c : Char) (h : c.isDigit = true) : c ≠ '-' ∧ c ≠ '+' := by
  constructor <;> rintro rfl <;> exact absurd h (by decide)

/-- The digit list `Nat.toDigitsCore` prepends to `ds` carries the value `n`:
reading the result most-significant-first extends the accumulator by a power
of ten and adds `n`. -/
theorem toDigitsCore_val :
    ∀ (fuel n : Nat) (ds : List Char) (acc : Nat), n < fuel →
      ∃ k, digitsVal (Nat.toDigitsCore 10 fuel n ds) acc =
        digitsVal ds (acc * 10 ^ k + n) := by
  intro fuel
  induction fuel with
  | zero => intro n ds acc h; omega
  | succ fuel ih =>
    intro n ds acc h
    by_cases h10 : n / 10 = 0
    · refine ⟨1, ?_⟩
      simp only [Nat.toDigitsCore, h10, if_true, digitsVal]
      rw [(digitChar_val (n % 10) (by omega)).1]
      have : acc * 10 + (48 + n % 10 - 48) = acc * 10 ^ 1 + n := by
        simp only [pow_one]; omega
      rw [this]
    · obtain ⟨k, hk⟩ := ih (n / 10) (Nat.digitChar (n % 10) :: ds) acc (by omega)
      refine ⟨k + 1, ?_⟩
      simp only [Nat.toDigitsCore, h10, if_false]
      rw [hk]
      simp only [digitsVal]
      rw [(digitChar_val (n % 10) (by omega)).1]
      have : (acc * 10 ^ k + n / 10) * 10 + (48 + n % 10 - 48) =
          acc * 10 ^ (k + 1) + n := by
        rw [pow_succ, ← mul_assoc]
        generalize acc * 10 ^ k = A
        omega
      rw [this]

/-- Every character `Nat.toDigitsCore` emits is a digit. -/
theorem toDigitsCore_digits :
    ∀ (fuel n : Nat) (ds : List Char), (∀ c ∈ ds, c.isDigit = true) →
      ∀ c ∈ Nat.toDigitsCore 10 fuel n ds, c.isDigit = true := by
  intro fuel
  induction fuel with
  | zero => intro n ds h; simpa [Nat.toDigitsCore] using h
  | succ fuel ih =>
    intro n ds h
    by_cases h10 : n / 10 = 0 <;> simp only [Nat.toDigitsCore, h10, if_true, if_false]
    · intro c hc
      rcases List.mem_cons.mp hc with rfl | hc
      · exact (digitChar_val (n % 10) (by omega)).2
      · exact h c hc
    · refine ih (n / 10) _ ?_
      intro c hc
      rcases List.mem_cons.mp hc with rfl | hc
      · exact (digitChar_val (n % 10) (by omega)).2
      · exact h c hc

/-- The function `Nat.toDigitsCore` never shrinks its accumulator list to nothing. -/
theorem toDigitsCore_eq_nil :
    ∀ (fuel n : Nat) (ds : List Char), Nat.toDigitsCore 10 fuel n ds = [] → ds = [] := by
  intro fuel
  induction fuel with
  | zero => intro n ds h; simpa [Nat.toDigitsCore] using h
  | succ fuel ih =>
    intro n ds h
    by_cases h10 : n / 10 = 0 <;> simp only [Nat.toDigitsCore, h10, if_true, if_false] at h
    · exact absurd h (by simp)
    · exact absurd (ih (n / 10) _ h) (by simp)

/-- The decimal rendering of a natural number is never empty. -/
theorem toDigits_ne_nil (n : Nat) : Nat.toDigits 10 n ≠ [] := by
  intro hnil
  rw [Nat.toDigits] at hnil
  by_cases h10 : n / 10 = 0 <;>
    simp only [Nat.toDigitsCore, h10, if_true, if_false] at hnil
  · exact absurd hnil (by simp)
  · exact absurd (toDigitsCore_eq_nil _ _ _ hnil) (by simp)

/-- Reading the decimal rendering of `n` back gives `n`. -/
theorem digitsVal_toDigits (n : Nat) : digitsVal (Nat.toDigits 10 n) 0 = n := by
  obtain ⟨k, hk⟩ := toDigitsCore_val (n + 1) n [] 0 (Nat.lt_succ_self n)
  rw [Nat.toDigits, hk]
  simp [digitsVal]

/-- Parsing inverts printing: `std::stoul` inverts `std::to_string` on every value an `unsigned long`
can carry: the round trip through the decimal string is the identity. -/
theorem stoul_toString (n : Nat) (h : n ≤ ULONG_MAX) : stoul (toString n) = some n := by
  have hts : (toString n).data = Nat.toDigits 10 n := rfl
  have hdig : ∀ c ∈ Nat.toDigits 10 n, c.isDigit = true :=
    toDigitsCore_digits (n + 1) n [] (by simp)
  obtain ⟨c, cs, hl⟩ : ∃ c cs, Nat.toDigits 10 n = c :: cs := by
    cases hcase : Nat.toDigits 10 n with
    | nil => exact absurd hcase (toDigits_ne_nil n)
    | cons c cs => exact ⟨c, cs, rfl⟩
  have hc : c.isDigit = true := hdig c (by rw [hl]; exact List.mem_cons_self c cs)
  have hval : digitsVal (c :: cs) 0 = n := by rw [← hl]; exact digitsVal_toDigits n
  have hsp : isSpaceC c = false := digit_not_space c hc
  have hsg := digit_not_sign c hc
  have hdw : List.dropWhile isSpaceC (c :: cs) = c :: cs := by
    simp [List.dropWhile_cons, hsp]
  have hsgn : (some c = some '-') = False := by simp [hsg.1]
  have hplus : (some c = some '+') = False := by simp [hsg.2]
  have htw : (c :: cs).takeWhile Char.isDigit = c :: cs :=
    List.takeWhile_eq_self_iff.mpr (fun x hx => hdig x (hl ▸ hx))
  have hrange : (ULONG_MAX < digitsVal (c :: cs) 0) = False := by
    rw [hval]; simp only [eq_iff_iff, iff_false]; omega
  rw [stoul]
  simp only [hts, hl, hdw, List.head?_cons, hsgn, hplus, or_self, htw,
    List.isEmpty_cons, hrange, if_false, Bool.false_eq_true, hval]
  rw [if_neg (by omega : ¬ ULONG_MAX < n)]
  norm_num

/-- C1: for every parameters map and gateway flag, a successfully created
service holds the resolved bind address — empty request → loopback `127.0.0.1`,
`"*"` with gateway ports enabled → any-address `0.0.0.0`, any other literal
with gateway ports enabled → verbatim, any non-empty request with gateway
ports disabled → loopback fallback — and the address resolution never rejects
the creation: success depends only on key presence, port parsing and the
local-port range, not on the value of `local_addr`. -/
theorem create_resolves_local_addr (ps : Params) (gw : Bool) :
    (∀ s, Create ps gw = some s →
      s.local_addr = resolveLocalAddr (getParam ps "local_addr") gw)
    ∧ ((Create ps gw).isSome = true ↔
      (hasKey ps "local_addr" = true ∧ hasKey ps "local_port" = true ∧
       hasKey ps "remote_port" = true ∧
       ∃ lp rp, stoul (getParam ps "local_port") = some lp ∧
         stoul (getParam ps "remote_port") = some rp ∧ lp % 2 ^ 32 ≤ 65535)) := by
  by_cases hk : hasKey ps "local_addr" = true ∧ hasKey ps "local_port" = true ∧
      hasKey ps "remote_port" = true
  · cases hlp : stoul (getParam ps "local_port") with
    | none => simp [create_eq, hk, hlp]
    | some lp =>
      cases hrp : stoul (getParam ps "remote_port") with
      | none => simp [create_eq, hk, hlp, hrp]
      | some rp =>
        by_cases hr : 65535 < lp % 2 ^ 32 <;>
          simp [create_eq, hk, hlp, hrp, hr]
  · simp only [create_eq, if_neg hk]
    constructor
    · intro s hs; exact absurd hs (by simp)
    · simp only [Option.isSome_none, Bool.false_eq_true, false_iff]
      intro hcon
      exact hk ⟨hcon.1, hcon.2.1, hcon.2.2.1⟩

/-- C1 witness: a non-loopback literal with gateway ports disabled is created
successfully but bound to loopback. -/
theorem create_resolves_local_addr_witness :
    Create [("local_addr", "192.0.2.1"), ("local_port", "80"), ("remote_port", "1")] false
      = some { local_addr := "127.0.0.1", local_port := 80, remote_port := 1 }
    ∧ ({ local_addr := "127.0.0.1", local_port := 80, remote_port := 1 : Service }).local_addr
      = resolveLocalAddr "192.0.2.1" false := by
  refine ⟨by decide, ?_⟩
  exact (create_resolves_local_addr
    [("local_addr", "192.0.2.1"), ("local_port", "80"), ("remote_port", "1")] false).1
    _ (by decide)

/-- C2 counterexample: `local_port = "80x"` has trailing non-digit characters,
which the claim says must be rejected with `InvalidParameters`, yet `Create`
succeeds — `std::stoul` stops at the first non-digit and returns 80. -/
theorem create_accepts_trailing_garbage :
    Create [("local_addr", ""), ("local_port", "80x"), ("remote_port", "1")] true
      = some { local_addr := "127.0.0.1", local_port := 80, remote_port := 1 } := by
  decide

/-- C2 amended: with all three keys present, `Create` fails with
`InvalidParameters` exactly when `std::stoul` rejects one of the port strings
(no digit after optional whitespace and sign, or magnitude above
`ULONG_MAX`); any string `stoul` accepts — including ones with a sign or with
trailing garbage after the digit prefix — passes the parse. -/
theorem create_invalid_port_parse (ps : Params) (gw : Bool)
    (h1 : hasKey ps "local_addr" = true) (h2 : hasKey ps "local_port" = true)
    (h3 : hasKey ps "remote_port" = true) :
    ((stoul (getParam ps "local_port") = none ∨ stoul (getParam ps "remote_port") = none)
      → Create ps gw = none)
    ∧ (∀ lp rp, stoul (getParam ps "local_port") = some lp →
        stoul (getParam ps "remote_port") = some rp → lp % 2 ^ 32 ≤ 65535 →
        (Create ps gw).isSome = true) := by
  constructor
  · intro hbad
    rw [create_eq, if_pos ⟨h1, h2, h3⟩]
    rcases hbad with hbad | hbad <;> rw [hbad] <;>
      cases stoul (getParam ps "remote_port") <;>
        cases stoul (getParam ps "local_port") <;> rfl
  · intro lp rp hlp hrp hr
    have hr2 : ¬ 65535 < lp % 4294967296 := by rw [Nat.not_lt]; simpa using hr
    rw [create_eq, if_pos ⟨h1, h2, h3⟩, hlp, hrp]
    simp [hr2]

/-- C2 witness: a remote-port string with no digits at all is rejected. -/
theorem create_invalid_port_parse_witness :
    Create [("local_addr", ""), ("local_port", "abc"), ("remote_port", "1")] true = none :=
  (create_invalid_port_parse
    [("local_addr", ""), ("local_port", "abc"), ("remote_port", "1")] true
    (by decide) (by decide) (by decide)).1 (Or.inl (by decide))

/-- C3 counterexample: `local_port = "4294967296"` parses (via `stoul` on
LP64) to `2 ^ 32 > 65535`, so the claim demands an `OutOfRange` failure, yet
`Create` succeeds: the `uint32_t` conversion truncates the value to 0 before
the range check. -/
theorem create_local_port_truncation :
    stoul "4294967296" = some 4294967296
    ∧ (65535 : Nat) < 4294967296
    ∧ Create [("local_addr", ""), ("local_port", "4294967296"), ("remote_port", "1")] true
      = some { local_addr := "127.0.0.1", local_port := 0, remote_port := 1 } := by
  refine ⟨by decide, by norm_num, by decide⟩

/-- C3 amended: the `OutOfRange` check applies to the parsed local port after
truncation modulo `2 ^ 32` (its conversion to `uint32_t`): a truncated value
above 65535 fails `Create`, a truncated value in `[0, 65535]` never makes
`Create` fail on account of `local_port`. -/
theorem create_local_port_range (ps : Params) (gw : Bool) (lp rp : Nat)
    (h1 : hasKey ps "local_addr" = true) (h2 : hasKey ps "local_port" = true)
    (h3 : hasKey ps "remote_port" = true)
    (hlp : stoul (getParam ps "local_port") = some lp)
    (hrp : stoul (getParam ps "remote_port") = some rp) :
    (65535 < lp % 2 ^ 32 → Create ps gw = none)
    ∧ (lp % 2 ^ 32 ≤ 65535 → (Create ps gw).isSome = true) := by
  constructor
  · intro hr
    have hr2 : 65535 < lp % 4294967296 := by simpa using hr
    rw [create_eq, if_pos ⟨h1, h2, h3⟩, hlp, hrp]
    simp [hr2]
  · intro hr
    have hr2 : ¬ 65535 < lp % 4294967296 := by rw [Nat.not_lt]; simpa using hr
    rw [create_eq, if_pos ⟨h1, h2, h3⟩, hlp, hrp]
    simp [hr2]

/-- C3 witness: `local_port = "70000"` is rejected (70000 is unchanged by the
truncation and exceeds 65535). -/
theorem create_local_port_range_witness :
    Create [("local_addr", ""), ("local_port", "70000"), ("remote_port", "1")] true = none :=
  (create_local_port_range
    [("local_addr", ""), ("local_port", "70000"), ("remote_port", "1")] true 70000 1
    (by decide) (by decide) (by decide) (by decide) (by decide)).1 (by norm_num)

/-- C4: with any of the three keys absent, `Create` fails (returns the null
service) before touching anything else. -/
theorem create_missing_key (ps : Params) (gw : Bool)
    (h : hasKey ps "local_addr" = false ∨ hasKey ps "local_port" = false ∨
      hasKey ps "remote_port" = false) :
    Create ps gw = none := by
  unfold Create
  rw [if_pos h]

/-- C4 witness: `local_addr` missing. -/
theorem create_missing_key_witness :
    Create [("local_port", "80"), ("remote_port", "1")] true = none :=
  create_missing_key [("local_port", "80"), ("remote_port", "1")] true (Or.inl (by decide))

/-- C5 counterexample: the round trip is not the identity on `local_addr` —
`GetCreateRequest "*" 80 1` fed back through `Create` with gateway ports
enabled yields a service bound to `0.0.0.0`, not to the original `"*"`. -/
theorem roundtrip_star_not_verbatim :
    Create (GetCreateRequest "*" 80 1).params true
      = some { local_addr := "0.0.0.0", local_port := 80, remote_port := 1 }
    ∧ ("0.0.0.0" : String) ≠ "*" := by
  refine ⟨by decide, by decide⟩

/-- C5 amended: the map built by `GetCreateRequest` (under the stable factory
id) always passes `Create`'s validation with gateway ports enabled provided
`local_port ≤ 65535`, and the resulting service holds the original
`local_port` and `remote_port` and the *resolved* `local_addr` — identical to
the original for any literal other than the empty string and `"*"`, loopback
and any-address respectively for those two. -/
theorem roundtrip_amended (la : String) (lp rp : Nat)
    (hlp : lp ≤ 65535) (hrp : rp < 2 ^ 32) :
    (GetCreateRequest la lp rp).factory_id = kFactoryId
    ∧ Create (GetCreateRequest la lp rp).params true
      = some { local_addr := resolveLocalAddr la true, local_port := lp,
               remote_port := rp } := by
  refine ⟨rfl, ?_⟩
  have hmax : (2 : Nat) ^ 64 - 1 = ULONG_MAX := rfl
  have hslp : stoul (toString lp) = some lp := by
    refine stoul_toString lp ?_
    rw [← hmax]; omega
  have hsrp : stoul (toString rp) = some rp := by
    refine stoul_toString rp ?_
    have : (2 : Nat) ^ 32 ≤ 2 ^ 64 - 1 := by norm_num
    rw [← hmax]; omega
  have hk1 : hasKey (GetCreateRequest la lp rp).params "local_addr" = true := rfl
  have hk2 : hasKey (GetCreateRequest la lp rp).params "local_port" = true := rfl
  have hk3 : hasKey (GetCreateRequest la lp rp).params "remote_port" = true := rfl
  have hg1 : getParam (GetCreateRequest la lp rp).params "local_addr" = la := rfl
  have hg2 : getParam (GetCreateRequest la lp rp).params "local_port" = toString lp := rfl
  have hg3 : getParam (GetCreateRequest la lp rp).params "remote_port" = toString rp := rfl
  have hlp32 : lp % 2 ^ 32 = lp := Nat.mod_eq_of_lt (lt_of_le_of_lt hlp (by norm_num))
  have hlp16 : lp % 2 ^ 16 = lp := Nat.mod_eq_of_lt (lt_of_le_of_lt hlp (by norm_num))
  have hrp32 : rp % 2 ^ 32 = rp := Nat.mod_eq_of_lt hrp
  rw [create_eq, if_pos ⟨hk1, hk2, hk3⟩, hg1, hg2, hg3, hslp, hsrp]
  simp only [hlp32, hlp16, hrp32]
  rw [if_neg (Nat.not_lt.mpr hlp)]

/-- C5 witness: the round trip at a plain literal address and in-range ports
reproduces the configuration exactly. -/
theorem roundtrip_amended_witness :
    Create (GetCreateRequest "192.0.2.1" 9000 42).params true
      = some { local_addr := resolveLocalAddr "192.0.2.1" true, local_port := 9000,
               remote_port := 42 } :=
  (roundtrip_amended "192.0.2.1" 9000 42 (by norm_num) (by norm_num)).2

/-- C9: every failure mode of `Create` — missing key, unparseable port, local
port out of range — returns the very same null service pointer `none`; the
interface cannot distinguish them. -/
theorem create_failures_all_null (ps : Params) (gw : Bool) :
    ((hasKey ps "local_addr" = false ∨ hasKey ps "local_port" = false ∨
        hasKey ps "remote_port" = false) → Create ps gw = none)
    ∧ ((stoul (getParam ps "local_port") = none ∨
        stoul (getParam ps "remote_port") = none) → Create ps gw = none)
    ∧ (∀ lp, stoul (getParam ps "local_port") = some lp → 65535 < lp % 2 ^ 32 →
        Create ps gw = none) := by
  refine ⟨fun h => by unfold Create; rw [if_pos h], ?_, ?_⟩
  · intro hbad
    rw [create_eq]
    split
    · rcases hbad with hbad | hbad <;> rw [hbad] <;>
        cases stoul (getParam ps "remote_port") <;>
          cases stoul (getParam ps "local_port") <;> rfl
    · rfl
  · intro lp hlp hr
    rw [create_eq]
    split
    · rw [hlp]
      have hr2 : 65535 < lp % 4294967296 := by simpa using hr
      cases stoul (getParam ps "remote_port") with
      | none => rfl
      | some rp => simp [hr2]
    · rfl

/-- C9 witness: the empty map fails with the null service. -/
theorem create_failures_all_null_witness :
    Create [] false = none :=
  (create_failures_all_null [] false).1 (Or.inl (by decide))

/-- C10: `remote_port` is never range-checked — whenever the string parses and
the rest of the validation passes, `Create` succeeds for every parsed value,
storing it truncated modulo `2 ^ 32` in the 32-bit remote-port field. -/
theorem remote_port_not_range_checked (ps : Params) (gw : Bool) (lp rp : Nat)
    (h1 : hasKey ps "local_addr" = true) (h2 : hasKey ps "local_port" = true)
    (h3 : hasKey ps "remote_port" = true)
    (hlp : stoul (getParam ps "local_port") = some lp)
    (hrp : stoul (getParam ps "remote_port") = some rp)
    (hr : lp % 2 ^ 32 ≤ 65535) :
    ∃ s, Create ps gw = some s ∧ s.remote_port = rp % 2 ^ 32 := by
  have hr2 : ¬ 65535 < lp % 4294967296 := by rw [Nat.not_lt]; simpa using hr
  rw [create_eq, if_pos ⟨h1, h2, h3⟩, hlp, hrp]
  simp [hr2]

/-- C10 witness: `remote_port = "4294967297"` (that is `2 ^ 32 + 1`) parses,
is accepted, and is stored truncated to 1. -/
theorem remote_port_not_range_checked_witness :
    ∃ s, Create [("local_addr", ""), ("local_port", "80"), ("remote_port", "4294967297")] true
      = some s ∧ s.remote_port = 4294967297 % 2 ^ 32 :=
  remote_port_not_range_checked
    [("local_addr", ""), ("local_port", "80"), ("remote_port", "4294967297")] true 80 4294967297
    (by decide) (by decide) (by decide) (by decide) (by decide) (by norm_num)

/-- Rewriting the state of session `id` does not change what lookup finds for
any other id. -/
theorem lookup_map_set_ne (l : List (Nat × SessionState)) (id j : Nat)
    (st : SessionState) (h : j ≠ id) :
    List.lookup j (l.map fun p => if p.1 = id then (p.1, st) else p) = List.lookup j l := by
  induction l with
  | nil => rfl
  | cons p l ih =>
    obtain ⟨k, v⟩ := p
    rw [List.map_cons]
    by_cases hk : k = id
    · subst hk
      rw [if_pos rfl]
      have hj : (j == k) = false := by simp [h]
      simp [List.lookup, hj, ih]
    · rw [if_neg hk]
      by_cases hjk : j = k
      · subst hjk
        simp [List.lookup]
      · have hj : (j == k) = false := by simp [hjk]
        simp [List.lookup, hj, ih]

/-- Rewriting the state of session `id` makes lookup of `id` find the new
state exactly when a session with that id exists. -/
theorem lookup_map_set_self (l : List (Nat × SessionState)) (id : Nat)
    (st : SessionState) :
    List.lookup id (l.map fun p => if p.1 = id then (p.1, st) else p)
      = (List.lookup id l).map fun _ => st := by
  induction l with
  | nil => rfl
  | cons p l ih =>
    obtain ⟨k, v⟩ := p
    rw [List.map_cons]
    by_cases hk : k = id
    · subst hk
      rw [if_pos rfl]
      simp [List.lookup]
    · rw [if_neg hk]
      have hj : (id == k) = false := by simp [Ne.symm hk]
      simp [List.lookup, hj, ih]

/-- Closing a session twice is the same as closing it once: the second
trigger finds the session already `Closed` and does nothing. -/
theorem closeSession_idem (r : RegState) (id : Nat) :
    closeSession (closeSession r id) id = closeSession r id := by
  unfold closeSession
  by_cases hopen : isOpen (lookupSession r id) = true
  · rw [if_pos hopen]
    have hlk : lookupSession (eraseReg (setState r id SessionState.Closed) id) id
        = (List.lookup id r.sessions).map fun _ => SessionState.Closed := by
      unfold lookupSession eraseReg setState
      exact lookup_map_set_self r.sessions id SessionState.Closed
    rw [if_neg ?_]
    rw [hlk]
    cases List.lookup id r.sessions <;> simp [isOpen]
  · rw [if_neg hopen, if_neg hopen]

/-- Closing a session preserves the registry invariant. -/
theorem closeSession_inv (r : RegState) (a : Nat) (h : RegInv r) :
    RegInv (closeSession r a) := by
  obtain ⟨hiff, hnd⟩ := h
  unfold closeSession
  by_cases hopen : isOpen (lookupSession r a) = true
  · rw [if_pos hopen]
    constructor
    · intro j
      show j ∈ r.registry.erase a ↔ _
      by_cases hj : j = a
      · subst hj
        constructor
        · intro hmem
          exact absurd hmem hnd.not_mem_erase
        · intro hiso
          exfalso
          have hlk : lookupSession (eraseReg (setState r j SessionState.Closed) j) j
              = (List.lookup j r.sessions).map fun _ => SessionState.Closed :=
            lookup_map_set_self r.sessions j SessionState.Closed
          rw [hlk] at hiso
          cases hx : List.lookup j r.sessions <;> rw [hx] at hiso <;>
            simp [isOpen] at hiso
      · rw [List.mem_erase_of_ne hj]
        have hlk : lookupSession (eraseReg (setState r a SessionState.Closed) a) j
            = List.lookup j r.sessions :=
          lookup_map_set_ne r.sessions a j SessionState.Closed hj
        rw [hlk]
        exact hiff j
    · exact hnd.erase a
  · rw [if_neg hopen]
    exact ⟨hiff, hnd⟩

/-- Every reachable registry state satisfies the invariant: registered ids
are exactly the live sessions, and no id is registered twice. -/
theorem reachable_inv {r : RegState} (h : Reachable r) : RegInv r := by
  induction h with
  | init =>
    constructor
    · intro id
      simp [lookupSession, List.lookup, isOpen]
    · exact List.nodup_nil
  | step hr hst ih =>
    rename_i s t
    cases hst with
    | accept id hid =>
      obtain ⟨hiff, hnd⟩ := ih
      constructor
      · intro j
        by_cases hj : j = id
        · subst hj
          simp [lookupSession, List.lookup, isOpen]
        · have hne : (j == id) = false := by simp [hj]
          show j ∈ id :: s.registry ↔ _
          rw [List.mem_cons]
          have : lookupSession
              { sessions := (id, SessionState.Connecting) :: s.sessions,
                registry := id :: s.registry } j = List.lookup j s.sessions := by
            simp [lookupSession, List.lookup, hne]
          rw [this]
          constructor
          · rintro (rfl | hmem)
            · exact absurd rfl hj
            · exact (hiff j).mp hmem
          · intro hiso
            exact Or.inr ((hiff j).mpr hiso)
      · refine List.nodup_cons.mpr ⟨?_, hnd⟩
        intro hmem
        have := (hiff id).mp hmem
        rw [lookupSession, hid] at this
        simp [isOpen] at this
    | relay id hid =>
      obtain ⟨hiff, hnd⟩ := ih
      constructor
      · intro j
        show j ∈ s.registry ↔ _
        by_cases hj : j = id
        · subst hj
          have hlk : lookupSession (setState s j SessionState.Relaying) j
              = (List.lookup j s.sessions).map fun _ => SessionState.Relaying :=
            lookup_map_set_self s.sessions j SessionState.Relaying
          rw [hlk, hid]
          have : j ∈ s.registry := (hiff j).mpr (by rw [lookupSession, hid]; rfl)
          simp [this, isOpen]
        · have hlk : lookupSession (setState s id SessionState.Relaying) j
              = List.lookup j s.sessions :=
            lookup_map_set_ne s.sessions id j SessionState.Relaying hj
          rw [hlk]
          exact hiff j
      · exact hnd
    | close id => exact closeSession_inv s id ih

/-- Folding `closeSession` over a list covering every registered id drains
the registry completely and preserves the invariant. -/
theorem foldl_close (l : List Nat) :
    ∀ r : RegState, RegInv r → (∀ id ∈ r.registry, id ∈ l) →
      (List.foldl closeSession r l).registry = []
      ∧ RegInv (List.foldl closeSession r l) := by
  induction l with
  | nil =>
    intro r hinv hsub
    refine ⟨List.eq_nil_iff_forall_not_mem.mpr fun a ha => ?_, hinv⟩
    exact absurd (hsub a ha) (List.not_mem_nil a)
  | cons a l ih =>
    intro r hinv hsub
    rw [List.foldl_cons]
    refine ih (closeSession r a) (closeSession_inv r a hinv) ?_
    intro j hj
    by_cases hopen : isOpen (lookupSession r a) = true
    · rw [closeSession, if_pos hopen] at hj
      have hj2 : j ≠ a ∧ j ∈ r.registry := hinv.2.mem_erase_iff.mp hj
      rcases List.mem_cons.mp (hsub j hj2.2) with rfl | hmem
      · exact absurd rfl hj2.1
      · exact hmem
    · rw [closeSession, if_neg hopen] at hj
      have hja : j ≠ a := by
        rintro rfl
        exact hopen ((hinv.1 j).mp hj)
      rcases List.mem_cons.mp (hsub j hj) with rfl | hmem
      · exact absurd rfl hja
      · exact hmem

/-- Running `stopAll` on an invariant-respecting state empties the registry and
preserves the invariant. -/
theorem stopAll_registry (r : RegState) (h : RegInv r) :
    (stopAll r).registry = [] ∧ RegInv (stopAll r) :=
  foldl_close r.registry r h fun _ hid => hid

/-- C6: in every reachable state a session id is in the registry exactly when
its session is `Connecting` or `Relaying`; the transition to `Closed` removes
it exactly once (a second trigger — the race of self-teardown with
`stopAll` — is a no-op), and erasing an absent id leaves the state
unchanged. -/
theorem registry_invariant (s : RegState) (hs : Reachable s) (id : Nat) :
    (id ∈ s.registry ↔ isOpen (lookupSession s id) = true)
    ∧ closeSession (closeSession s id) id = closeSession s id
    ∧ (id ∉ s.registry → eraseReg s id = s) := by
  refine ⟨(reachable_inv hs).1 id, closeSession_idem s id, ?_⟩
  intro hnm
  unfold eraseReg
  rw [List.erase_of_not_mem hnm]

/-- C6 witness: the state reached by accepting session 0, probed at the
absent id 1. -/
theorem registry_invariant_witness :
    ((1 : Nat) ∈ (RegState.mk [(0, SessionState.Connecting)] [0]).registry
      ↔ isOpen (lookupSession (RegState.mk [(0, SessionState.Connecting)] [0]) 1) = true)
    ∧ closeSession (closeSession (RegState.mk [(0, SessionState.Connecting)] [0]) 1) 1
        = closeSession (RegState.mk [(0, SessionState.Connecting)] [0]) 1
    ∧ eraseReg (RegState.mk [(0, SessionState.Connecting)] [0]) 1
        = RegState.mk [(0, SessionState.Connecting)] [0] := by
  obtain ⟨h1, h2, h3⟩ := registry_invariant (RegState.mk [(0, SessionState.Connecting)] [0])
    (Reachable.step Reachable.init (Step.accept (RegState.mk [] []) 0 rfl)) 1
  exact ⟨h1, h2, h3 (by decide)⟩

/-- C7: `stop` reports no error, closes the listening endpoint, drains every
session from the registry, and is idempotent — a second call (or a call on a
service that never started) returns the same state and again no error. -/
theorem stop_idempotent (s : ServiceState) (h : RegInv s.reg) :
    (stop s).2 = none
    ∧ (stop s).1.acceptor_open = false
    ∧ (stop s).1.reg.registry = []
    ∧ (∀ id, isOpen (lookupSession (stop s).1.reg id) = false)
    ∧ stop (stop s).1 = ((stop s).1, none) := by
  obtain ⟨hreg, hinv⟩ := stopAll_registry s.reg h
  refine ⟨rfl, rfl, hreg, ?_, ?_⟩
  · intro id
    by_contra hopen
    rw [Bool.not_eq_false] at hopen
    have hmem : id ∈ (stopAll s.reg).registry := (hinv.1 id).mpr hopen
    rw [hreg] at hmem
    exact absurd hmem (List.not_mem_nil id)
  · have h2 : stopAll (stopAll s.reg) = stopAll s.reg := by
      show (stopAll s.reg).registry.foldl closeSession (stopAll s.reg) = stopAll s.reg
      rw [hreg]
      rfl
    show (ServiceState.mk false (stopAll (stopAll s.reg)), (none : Option String))
      = (ServiceState.mk false (stopAll s.reg), none)
    rw [h2]

/-- C7 witness: stopping a service with one live session empties the registry
with no error, and stopping again is a no-op. -/
theorem stop_idempotent_witness :
    (stop (ServiceState.mk true (RegState.mk [(0, SessionState.Connecting)] [0]))).2 = none
    ∧ (stop (ServiceState.mk true (RegState.mk [(0, SessionState.Connecting)] [0]))).1.reg.registry
        = []
    ∧ stop (stop (ServiceState.mk true (RegState.mk [(0, SessionState.Connecting)] [0]))).1
        = ((stop (ServiceState.mk true (RegState.mk [(0, SessionState.Connecting)] [0]))).1,
           none) := by
  obtain ⟨h1, _, h3, _, h5⟩ := stop_idempotent
    (ServiceState.mk true (RegState.mk [(0, SessionState.Connecting)] [0]))
    (reachable_inv (Reachable.step Reachable.init (Step.accept (RegState.mk [] []) 0 rfl)))
  exact ⟨h1, h3, h5⟩

/-- C8: when the outbound fiber open fails, the handler closes the inbound
TCP socket, schedules no retry, and leaves the service state — in particular
the session registry — exactly as it was: no entry is ever created for the
failed establishment. -/
theorem fiber_connect_failure_no_entry (s : ServiceState) (id : Nat) :
    (fiberConnectHandler true s id).1 = s
    ∧ (fiberConnectHandler true s id).2.socket_closed = true
    ∧ (fiberConnectHandler true s id).2.retried = false :=
  ⟨rfl, rfl, rfl⟩
